import Mathlib

/-!
Verification of the Advirs phishing-risk scoring engine
(`src/background.js`, function `analyzeProfileCore` and its helpers).

The JavaScript source is shallowly embedded: scores are modelled as exact
rationals (the source arithmetic is over JS numbers; all constants are
short decimals), JS strings as Lean `String`, JS arrays as Lean lists, and
the `URL` platform builtin as an executable simplified WHATWG-style parser
returning `Option`.  Each definition carries a comment pointing at the
source lines it embeds.
-/

set_option maxRecDepth 40000

namespace Advirs

/-- ASCII lowercasing, character by character; models
`String.prototype.toLowerCase` on the ASCII inputs the source handles. -/
def sLower (s : String) : String :=
  String.mk (s.data.map Char.toLower)

/-- Character-list prefix test used to model anchored regex tests. -/
def listIsPrefixOf : List Char → List Char → Bool
  | [], _ => true
  | _ :: _, [] => false
  | b :: p, a :: l => a = b && listIsPrefixOf p l

/-- True when `p` is a prefix of `s`. -/
def sStartsWith (s p : String) : Bool :=
  listIsPrefixOf p.data s.data

/-- Models the array join with a separator (`join(',')`, `join('.')`). -/
def jsJoin (sep : String) : List String → String
  | [] => ""
  | [x] => x
  | x :: y :: xs => x ++ sep ++ jsJoin sep (y :: xs)

/-- First `n` characters of a string; models `String.prototype.slice(0, n)`. -/
def sTake (s : String) (n : ℕ) : String :=
  String.mk (s.data.take n)

/-- Whitespace for the purposes of `String.prototype.trim` (ASCII model). -/
def jsWhite (c : Char) : Bool :=
  c = ' ' || c = '\t' || c = '\n' || c = '\r'

/-- Models `String.prototype.trim`. -/
def jsTrim (s : String) : String :=
  String.mk (((s.data.dropWhile jsWhite).reverse.dropWhile jsWhite).reverse)

/-- Splits a character list at every occurrence of the separator, keeping
empty pieces; models `String.prototype.split` with a one-character
separator (`"".split('.') == [""]`, `"a..b".split('.') == ["a","","b"]`). -/
def splitCh (sep : Char) : List Char → List (List Char)
  | [] => [[]]
  | c :: rest =>
    if c = sep then [] :: splitCh sep rest
    else
      match splitCh sep rest with
      | [] => [[c]]
      | g :: gs => (c :: g) :: gs

/-- String-level wrapper of `splitCh`; models `str.split(sep)` in the source. -/
def jsSplit (sep : Char) (s : String) : List String :=
  (splitCh sep s.data).map (fun g => String.mk g)

/-- True when `pat` occurs as a contiguous run inside `l`; helper for
`String.prototype.includes`. -/
def listHasInfix : List Char → List Char → Bool
  | [], pat => listIsPrefixOf pat []
  | a :: l, pat => listIsPrefixOf pat (a :: l) || listHasInfix l pat

/-- Models `s.includes(pat)` from the source (substring containment). -/
def jsIncludes (s pat : String) : Bool :=
  listHasInfix s.data pat.data

/-- Models `Number.prototype.toFixed(2)` on the nonnegative rationals the
source prints (normalized distances in `[0,1]`): rounds half-up to two
decimal places and renders `d.dd`. -/
def toFixed2 (q : ℚ) : String :=
  let n : ℤ := ⌊q * 100 + 1 / 2⌋
  let a : ℤ := n / 100
  let b : ℤ := n % 100
  toString a ++ "." ++ (if b < 10 then "0" ++ toString b else toString b)

/-! ## Model of the `URL` platform builtin

A simplified executable model of the WHATWG URL parser, covering the
fragment of behaviour the source exercises: special schemes with an
authority, non-special schemes with an opaque path, base-relative
resolution against bases of the shape `https://host`, and rejection of
hosts containing forbidden characters.  Parse failure (`none`) models a
thrown `TypeError`. -/

/-- Parsed URL: the lowercased hostname and the path. -/
structure JsUrl where
  host : String
  pathname : String
deriving DecidableEq, Repr

/-- Schemes whose URLs carry an authority/host ("special" schemes used by
the repository's inputs). -/
def specialSchemes : List String := ["http", "https", "ws", "wss", "ftp"]

/-- Splits a leading `scheme:` off a URL string, lowercasing the scheme;
`none` when the string has no scheme. -/
def splitScheme (s : String) : Option (String × String) :=
  match s.data with
  | [] => none
  | c :: _ =>
    if c.isAlpha then
      let sch := s.data.takeWhile (fun c => c.isAlphanum || c = '+' || c = '-' || c = '.')
      match s.data.drop sch.length with
      | ':' :: r => some (String.mk (sch.map Char.toLower), String.mk r)
      | _ => none
    else none

/-- Characters that make a host invalid in the model (WHATWG forbidden
host code points restricted to those reachable after authority
splitting). -/
def forbiddenHostChar (c : Char) : Bool :=
  c = ' ' || c = '<' || c = '>' || c = '@' || c = '^' || c = '|' ||
  c = '%' || c = '[' || c = ']' || c = '"' || c.val < 32

/-- Validates and lowercases a host; `none` when empty or containing a
forbidden character. -/
def hostOk (h : List Char) : Option String :=
  if h = [] || h.any forbiddenHostChar then none
  else some (String.mk (h.map Char.toLower))

/-- Extracts the host from an authority component: drops userinfo (text up
to the last `@`), then splits off and validates a numeric port. -/
def parseHostPort (auth : List Char) : Option String :=
  let hp := (auth.reverse.takeWhile (fun c => c ≠ '@')).reverse
  let h := hp.takeWhile (fun c => c ≠ ':')
  match hp.drop h.length with
  | [] => hostOk h
  | _ :: p =>
    if p.all Char.isDigit && p.foldl (fun n c => n * 10 + (c.toNat - 48)) 0 ≤ 65535
    then hostOk h else none

/-- Parses the remainder of a special-scheme URL after `scheme:`:
slashes are skipped, the authority runs to the next delimiter, the path
(backslashes normalised to slashes) runs to `?` or `#` and defaults
to `/`. -/
def parseSpecial (rest : List Char) : Option JsUrl :=
  let r := rest.dropWhile (fun c => c = '/' || c = '\\')
  let auth := r.takeWhile (fun c => ¬(c = '/' || c = '\\' || c = '?' || c = '#'))
  let after := r.drop auth.length
  match parseHostPort auth with
  | none => none
  | some host =>
    let path := (after.takeWhile (fun c => ¬(c = '?' || c = '#'))).map
      (fun c => if c = '\\' then '/' else c)
    some ⟨host, if path = [] then "/" else String.mk path⟩

/-- Models WHATWG input preprocessing: strip tabs and newlines everywhere
and C0-control-or-space characters at both ends. -/
def urlPreprocess (s : String) : String :=
  let l := s.data.filter (fun c => ¬(c = '\t' || c = '\n' || c = '\r'))
  String.mk (((l.dropWhile (fun c => c ≤ ' ')).reverse.dropWhile (fun c => c ≤ ' ')).reverse)

/-- Parses an absolute URL string: special schemes get an authority and
path, other schemes an opaque path and empty host; schemeless input
fails. -/
def jsUrlParseAbs (input : String) : Option JsUrl :=
  let s := urlPreprocess input
  match splitScheme s with
  | none => none
  | some (sch, rest) =>
    if specialSchemes.contains sch then parseSpecial rest.data
    else some ⟨"", String.mk (rest.data.takeWhile (fun c => ¬(c = '?' || c = '#')))⟩

/-- Directory part of a path: everything up to and including the last
slash (used for relative resolution). -/
def dirOf (p : String) : List Char :=
  (p.data.reverse.dropWhile (fun c => c ≠ '/')).reverse

/-- Resolves a schemeless reference against an already-parsed base URL. -/
def relResolve (bu : JsUrl) (input : String) : Option JsUrl :=
  let l := (urlPreprocess input).data
  let slash : Char → Bool := fun c => c = '/' || c = '\\'
  match l with
  | [] => some bu
  | c :: rest =>
    if c = '?' || c = '#' then some ⟨bu.host, bu.pathname⟩
    else if slash c then
      match rest with
      | c2 :: _ =>
        if slash c2 then parseSpecial l
        else
          let path := (l.takeWhile (fun c => ¬(c = '?' || c = '#'))).map
            (fun c => if c = '\\' then '/' else c)
          some ⟨bu.host, String.mk path⟩
      | [] => some ⟨bu.host, "/"⟩
    else
      let path := dirOf bu.pathname ++
        (l.takeWhile (fun c => ¬(c = '?' || c = '#'))).map (fun c => if c = '\\' then '/' else c)
      some ⟨bu.host, String.mk path⟩

/-- Models `new URL(input, base?)`: absolute inputs ignore the base,
schemeless inputs are resolved against it, and `none` models a thrown
`TypeError`. -/
def jsUrlParse (input : String) (base : Option String) : Option JsUrl :=
  match splitScheme (urlPreprocess input) with
  | some _ => jsUrlParseAbs input
  | none =>
    match base with
    | none => none
    | some b =>
      match jsUrlParseAbs b with
      | none => none
      | some bu => relResolve bu input

/-! ## Utilities from `src/background.js` (lines 19–101) -/

/-- Models the test `/^https?:\/\//i.test(s)` (background.js line 22). -/
def httpSchemeTest (s : String) : Bool :=
  sStartsWith (sLower s) "http://" || sStartsWith (sLower s) "https://"

/-- Models the test `/^[a-z0-9.-]+$/i.test(s)` (background.js line 23). -/
def bareHostTest (s : String) : Bool :=
  s ≠ "" && s.data.all (fun c => c.isAlphanum || c = '.' || c = '-')

/-- Body of `safeGetHostname` after the falsy early return (lines 22–29):
schemeless bare-hostname input is returned lowercased without parsing;
other schemeless input gets `https://` prepended; the result is parsed as
a URL and its lowercased hostname returned; on parse failure the catch
block (line 28) returns the current — possibly prefixed — string
lowercased. -/
def safeGetHostnameRest (s : String) : String :=
  if ¬ httpSchemeTest s then
    if bareHostTest s then sLower s
    else
      match jsUrlParse ("https://" ++ s) none with
      | some u => sLower u.host
      | none => sLower ("https://" ++ s)
  else
    match jsUrlParse s none with
    | some u => sLower u.host
    | none => sLower s

/-- Embeds `safeGetHostname` (background.js lines 19–30) on strings:
empty input gives `""`, the rest is `safeGetHostnameRest`. -/
def safeGetHostname (urlOrHost : String) : String :=
  if urlOrHost = "" then "" else safeGetHostnameRest urlOrHost

/-- Embeds `getLabels` (lines 32–34): split on `.` and drop empty labels. -/
def getLabels (hostname : String) : List String :=
  (jsSplit '.' hostname).filter (fun p => p ≠ "")

/-- Embeds `getRegisteredDomain` (lines 36–40): the last two labels joined
by `.`, or the hostname unchanged when fewer than two labels exist. -/
def getRegisteredDomain (hostname : String) : String :=
  let parts := getLabels hostname
  if 2 ≤ parts.length then jsJoin "." (parts.drop (parts.length - 2))
  else hostname

/-- Embeds `getSecondLevelLabel` (lines 42–47). -/
def getSecondLevelLabel (hostname : String) : String :=
  let parts := getLabels hostname
  if parts.length = 0 then ""
  else if 2 ≤ parts.length then sLower (parts.getD (parts.length - 2) "")
  else sLower (parts.getD 0 "")

/-- One dotted-quad group of the IP regex: 1–3 characters, all digits. -/
def ipGroupOk (g : List Char) : Bool :=
  decide (1 ≤ g.length) && decide (g.length ≤ 3) && g.all Char.isDigit

/-- Embeds `isIpAddress` (lines 49–51), the anchored regex
`/^\d{1,3}(\.\d{1,3}){3}$/`: exactly four dot-separated groups of 1–3
digits. -/
def isIpAddress (hostname : String) : Bool :=
  let groups := splitCh '.' hostname.data
  groups.length == 4 && groups.all ipGroupOk

/-- Embeds `isPunycode` (lines 53–55): the hostname contains `xn--`
anywhere. -/
def isPunycode (hostname : String) : Bool :=
  jsIncludes hostname "xn--"

/-- Embeds `getTld` (lines 57–60): lowercased label after the final dot
(`split` never yields an empty list, so the last piece always exists). -/
def getTld (hostname : String) : String :=
  sLower ((jsSplit '.' hostname).getLastD "")

/-- Embeds `normalizeText` (lines 62–64) on strings: trim then
lowercase. -/
def normalizeText (s : String) : String :=
  sLower (jsTrim s)

/-- Inner row of the iterative Levenshtein loop (lines 74–81): walks the
previous row `v0` building the new row, carrying the value to the left. -/
def levRowAux (ca : Char) : List Char → List ℕ → ℕ → List ℕ
  | [], _, _ => []
  | _ :: _, [], _ => []
  | cb :: bs, v0j :: v0rest, prev =>
    let v0j1 := match v0rest with | [] => 0 | y :: _ => y
    let cost : ℕ := if ca = cb then 0 else 1
    let cur := min (prev + 1) (min (v0j1 + 1) (v0j + cost))
    cur :: levRowAux ca bs v0rest cur

/-- Embeds `levenshtein` (lines 67–83): the two-row dynamic-programming
Levenshtein distance. -/
def levenshtein (a b : String) : ℕ :=
  if a = b then 0
  else if a.length = 0 then b.length
  else if b.length = 0 then a.length
  else
    let v0 := List.range (b.length + 1)
    let res := a.data.foldl
      (fun (acc : List ℕ × ℕ) ca =>
        ((acc.2 + 1) :: levRowAux ca b.data acc.1 (acc.2 + 1), acc.2 + 1))
      (v0, 0)
    res.1.getLastD 0

/-- Embeds `normalizedDistance` (lines 85–90):
`levenshtein(a,b) / max(a.length, b.length, 1)`. -/
def normalizedDistance (a b : String) : ℚ :=
  (levenshtein a b : ℚ) / ((max a.length (max b.length 1) : ℕ) : ℚ)

/-- Embeds `RISKY_TLDS` (lines 93–95). -/
def riskyTlds : List String :=
  ["xyz", "top", "club", "pw", "icu", "work", "gq", "cf", "tk", "ml",
   "ga", "biz", "click", "win", "loan", "party"]

/-- Embeds `hostIsTrustedExact` (lines 97–101).  The source reads the
module-global trusted set; the only call path (message listener, lines
402–405) assigns that global from the same set it passes to
`analyzeProfileCore`, so the embedding takes the set as a parameter. -/
def hostIsTrustedExact (trusted : List String) (hostname : String) : Bool :=
  if hostname = "" then false
  else trusted.contains (sLower (getRegisteredDomain hostname))

/-- Embeds `suspiciousPathPatterns` (line 131). -/
def suspiciousPathPatterns : List String :=
  ["verify", "confirm", "signin", "login", "account", "secure", "billing", "payment"]

/-- Embeds `brandTokens` (line 139). -/
def brandTokens : List String :=
  ["secure", "login", "paypal", "bank", "apple", "google", "microsoft"]

/-- Embeds `linkIsSuspicious` (lines 104–154): ordered first-match-wins
rules over the link resolved against `https://pageHostname` (or
`example.com` when the page hostname is empty).  Returns the risk value
and the reasons the call appends. -/
def linkIsSuspicious (linkUrl pageHostname : String) : ℚ × List String :=
  match jsUrlParse linkUrl
      (some ("https://" ++ (if pageHostname = "" then "example.com" else pageHostname))) with
  | none => (0.05, ["Malformed/relative link flagged: " ++ linkUrl])
  | some u =>
    let host := sLower u.host
    let path := sLower u.pathname
    if host = "" then (0.02, ["Empty host for link: " ++ linkUrl])
    else if isIpAddress host then (0.20, ["Link uses raw IP address (" ++ host ++ ")"])
    else if isPunycode host then (0.18, ["Link contains punycode domain (" ++ host ++ ")"])
    else if riskyTlds.contains (getTld host) then
      (0.12, ["Link uses uncommon TLD ." ++ getTld host ++ " (" ++ host ++ ")"])
    else
      match suspiciousPathPatterns.find? (fun p => jsIncludes path p) with
      | some p =>
        (0.10, ["Link path contains suspicious token \"" ++ p ++ "\" (" ++ u.pathname ++ ")"])
      | none =>
        if host ≠ pageHostname then
          match brandTokens.find? (fun t => jsIncludes host t) with
          | some t =>
            (0.14, ["External link appears to impersonate brand token \"" ++ t ++ "\" (" ++ host ++ ")"])
          | none => (0, [])
        else (0, [])

/-! ## The scoring pipeline of `analyzeProfileCore` (lines 157–337)

The running `(score, suspicious, reasons)` triple threaded through the
source's statement blocks is made explicit as `ScoreSt`; each block
becomes a step function, and `analyzeProfileCore` their composition. -/

/-- The mutable locals `score`, `suspicious`, `reasons` of
`analyzeProfileCore`. -/
structure ScoreSt where
  score : ℚ
  suspicious : Bool
  reasons : List String
deriving DecidableEq, Repr

/-- The best (strictly smallest, first wins) SLD-distance match of the
typosquat loop (lines 180–185); `none` models `best.domain == null`. -/
def bestSldMatch (trusted : List String) (currentSld : String) :
    Option (String × ℚ × String) :=
  trusted.foldl
    (fun best td =>
      let tdSld := getSecondLevelLabel td
      let d := normalizedDistance currentSld tdSld
      match best with
      | none => if d < 1 then some (td, d, tdSld) else none
      | some (_, bd, _) => if d < bd then some (td, d, tdSld) else best)
    none

/-- The best full-registered-domain match of the fallback loop
(lines 192–196). -/
def bestFullMatch (trusted : List String) (currentReg : String) :
    Option (String × ℚ) :=
  trusted.foldl
    (fun best td =>
      let d := normalizedDistance currentReg td
      match best with
      | none => if d < 1 then some (td, d) else none
      | some (_, bd) => if d < bd then some (td, d) else best)
    none

/-- Embeds `BRAND_KEYWORDS` (lines 206–209) in `Object.entries` order. -/
def brandKeywords : List (String × List String) :=
  [("facebook", ["faceb", "fbk", "fb", "facebok", "faceboek", "faceboook"]),
   ("tiktok", ["tiktok", "ttk", "tik-tok"])]

/-- The brand-keyword double loop (lines 210–218). -/
def brandKeywordFold (trusted : List String) (currentReg currentSld : String)
    (st : ScoreSt) : ScoreSt :=
  brandKeywords.foldl
    (fun st1 entry =>
      entry.2.foldl
        (fun st2 kw =>
          if currentSld ≠ "" ∧ jsIncludes currentSld kw = true ∧
              trusted.contains currentReg = false then
            ⟨max st2.score 0.65, true,
             st2.reasons ++
               ["Domain SLD \"" ++ currentSld ++ "\" contains brand-like token \"" ++
                kw ++ "\" (looks like " ++ entry.1 ++ ")"]⟩
          else st2)
        st1)
    st

/-- The full-registered-domain fallback block (lines 191–203). -/
def typosquatFullPart (trusted : List String) (currentReg : String)
    (st : ScoreSt) : ScoreSt :=
  match bestFullMatch trusted currentReg with
  | some (dom, d) =>
    if dom ≠ "" ∧ d ≤ 0.30 then
      ⟨max st.score 0.75, true,
       st.reasons ++
         ["Registered domain \"" ++ currentReg ++ "\" somewhat resembles trusted domain \"" ++
          dom ++ "\" (distance " ++ toFixed2 d ++ ")."]⟩
    else ⟨st.score, st.suspicious, st.reasons ++ ["No similarity to trusted domains detected"]⟩
  | none => ⟨st.score, st.suspicious, st.reasons ++ ["No similarity to trusted domains detected"]⟩

/-- The typosquat-detection block (lines 174–224): SLD match first, full
registered-domain fallback, then the brand-keyword loop; pages whose
registered domain is in the trusted set only log a reason.  The source's
`catch` is unreachable in the embedding (no operation throws). -/
def typosquatStep (trusted : List String) (pageHostname : String) (st : ScoreSt) : ScoreSt :=
  let currentReg := sLower (getRegisteredDomain pageHostname)
  let currentSld := getSecondLevelLabel pageHostname
  if trusted.contains currentReg = false then
    let st1 :=
      match bestSldMatch trusted currentSld with
      | some (dom, d, tdSld) =>
        if dom ≠ "" ∧ d ≤ 0.30 then
          ⟨max st.score 0.75, true,
           st.reasons ++
             ["Domain SLD \"" ++ currentSld ++ "\" closely resembles trusted SLD \"" ++
              tdSld ++ "\" (distance " ++ toFixed2 d ++ "). Treated as typosquat (" ++
              currentReg ++ " ~ " ++ dom ++ ")."]⟩
        else typosquatFullPart trusted currentReg st
      | none => typosquatFullPart trusted currentReg st
    brandKeywordFold trusted currentReg currentSld st1
  else ⟨st.score, st.suspicious, st.reasons ++ ["Exact registered domain is trusted"]⟩

/-- Models the test `/^https:/i.test(url)` (line 227). -/
def httpsUrlTest (url : String) : Bool :=
  sStartsWith (sLower url) "https:"

/-- The HTTPS block (lines 226–231): non-HTTPS pages gain 0.20, but an
exactly-trusted and still-unsuspicious page is clamped to 0.05. -/
def httpsStep (url : String) (trustedExact : Bool) (st : ScoreSt) : ScoreSt :=
  if httpsUrlTest url = false then
    let sc := st.score + 0.20
    ⟨if trustedExact = true ∧ st.suspicious = false then min sc 0.05 else sc,
     st.suspicious, st.reasons ++ ["Page not served over HTTPS"]⟩
  else st

/-- `FormDescriptor` of the data model: the fields of a form object the
source reads. -/
structure Form where
  action : String
  method : String
  inputCount : ℕ
  hasPassword : Bool
deriving DecidableEq, Repr

/-- The inline expression `pageHostname.split('.').slice(-2).flatten('.')`
(line 238). -/
def lastTwoJoined (h : String) : String :=
  let parts := jsSplit '.' h
  jsJoin "." (parts.drop (parts.length - 2))

/-- One iteration of the forms loop (lines 234–251) on a well-typed form.
The `catch` branch is unreachable for typed forms (nothing throws); the
raw-value embedding `formStepJS` covers it. -/
def formStep (pageHostname : String) (trustedExact : Bool) (f : Form)
    (st : ScoreSt) : ScoreSt :=
  if f.hasPassword = true ∧ f.action ≠ "" then
    let actionHost := safeGetHostname f.action
    if actionHost ≠ "" ∧ actionHost ≠ pageHostname ∧
        jsIncludes actionHost (lastTwoJoined pageHostname) = false then
      ⟨st.score + 0.40, true,
       st.reasons ++ ["Login form posts to external host (" ++ actionHost ++ ")"]⟩
    else st
  else if 0 < f.inputCount ∧ f.hasPassword = false ∧ f.action ≠ "" then
    ⟨st.score + (if trustedExact then 0.02 else 0.06), st.suspicious,
     st.reasons ++ ["Form with inputs but no password field (possible data harvesting)"]⟩
  else st

/-- The forms loop over the whole list (line 234). -/
def formsStep (pageHostname : String) (trustedExact : Bool) (forms : List Form)
    (st : ScoreSt) : ScoreSt :=
  forms.foldl (fun st f => formStep pageHostname trustedExact f st) st

/-- The links block (lines 253–264): the first 40 links are assessed and
their risks summed (reasons appended as a side effect), the sum is divided
by `max(1, links.length)`, clamped to 0.15 (exactly trusted) or 0.40, the
clamped value is added to the score, and 0.30 or more forces suspicion.
An empty list skips the block (`links.length` is falsy). -/
def linksStep (pageHostname : String) (trustedExact : Bool) (links : List String)
    (st : ScoreSt) : ScoreSt :=
  if links.length ≠ 0 then
    let acc := (links.take 40).foldl
      (fun (acc : ℚ × List String) l =>
        let r := linkIsSuspicious l pageHostname
        (acc.1 + r.1, acc.2 ++ r.2))
      (0, st.reasons)
    let maxLinkContribution : ℚ := if trustedExact then 0.15 else 0.40
    let linkContribution := min maxLinkContribution (acc.1 / (max 1 links.length : ℕ))
    ⟨st.score + linkContribution,
     st.suspicious || decide ((0.3 : ℚ) ≤ linkContribution), acc.2⟩
  else st

/-- Embeds `redFlags` (lines 269–272). -/
def redFlags : List String :=
  ["your account will be locked", "verify your account", "click here to verify",
   "confirm your identity", "payment required", "suspend", "urgent action required"]

/-- The text-heuristics block (lines 266–280): each red-flag phrase found
in the lowercased sample independently adds 0.20 (exactly trusted) or 0.08
and forces suspicion; an empty sample skips the block. -/
def textStep (trustedExact : Bool) (textSample : String) (st : ScoreSt) : ScoreSt :=
  if textSample ≠ "" then
    let lower := sLower textSample
    redFlags.foldl
      (fun st f =>
        if jsIncludes lower f = true then
          ⟨st.score + (if trustedExact then 0.20 else 0.08), true,
           st.reasons ++ ["Suspicious page text matched: \"" ++ f ++ "\""]⟩
        else st)
      st
  else st

/-- The hostname checks block (lines 282–292): punycode and IP address are
tested independently, each adding 0.40 and forcing suspicion. -/
def hostChecksStep (pageHostname : String) (st : ScoreSt) : ScoreSt :=
  let st1 :=
    if isPunycode pageHostname = true then
      ⟨st.score + 0.40, true, st.reasons ++ ["Page hostname uses punycode"]⟩
    else st
  if isIpAddress pageHostname = true then
    ⟨st1.score + 0.40, true, st1.reasons ++ ["Page served from IP address"]⟩
  else st1

/-- Models the replacement `/^www\./` → `""` (line 300). -/
def stripWww (s : String) : String :=
  if sStartsWith s "www." = true then String.mk (s.data.drop 4) else s

/-- Inner part of the canonical/OG block (lines 298–308), after the
canonical host has been resolved. -/
def canonicalCore (canonicalHost pageHostname : String) (trustedExact : Bool)
    (st : ScoreSt) : ScoreSt :=
  if canonicalHost ≠ "" ∧ pageHostname ≠ "" then
    let norm := normalizedDistance (stripWww canonicalHost) (stripWww pageHostname)
    if 0.35 < norm then
      ⟨st.score + (if trustedExact then 0.20 else 0.12), true,
       st.reasons ++ ["Canonical/OG domain mismatch (normalized distance " ++ toFixed2 norm ++ ")"]⟩
    else if trustedExact = false then
      ⟨st.score, st.suspicious, st.reasons ++ ["Canonical/OG domain matches page"]⟩
    else st
  else st

/-- The canonical/OG block (lines 294–310); the payload field `canonical`
models `data.ogUrl || data.canonical`, with `""` for absent/falsy. -/
def canonicalStep (canonical pageHostname : String) (trustedExact : Bool)
    (st : ScoreSt) : ScoreSt :=
  if canonical ≠ "" then canonicalCore (safeGetHostname canonical) pageHostname trustedExact st
  else st

/-- One reason matches the `weakPatterns` list (line 314): the patterns
are unanchored case-insensitive substring tests. -/
def weakReason (r : String) : Bool :=
  jsIncludes (sLower r) "hyphen" || jsIncludes (sLower r) "subdomain" ||
  jsIncludes (sLower r) "depth" ||
  jsIncludes (sLower r) "no similarity to trusted domains detected" ||
  jsIncludes (sLower r) "multiple capitalized tokens"

/-- The trust-dampening block (lines 312–319): only when the page is
exactly trusted and still unsuspicious, weak reasons are removed and the
score clamped to 0.05. -/
def dampenStep (trustedExact : Bool) (st : ScoreSt) : ScoreSt :=
  if trustedExact = true ∧ st.suspicious = false then
    ⟨min st.score 0.05, st.suspicious, st.reasons.filter (fun r => weakReason r = false)⟩
  else st

/-- `PagePayload` of the data model: the typed view of the fields
`analyzeProfileCore` extracts (lines 160–167); alternate field names
(`handle`, `pageUrl`, `linkList`, …) are collapsed into the field they
feed, and `canonical` models `data.ogUrl || data.canonical`. -/
structure Payload where
  username : String
  displayName : String
  url : String
  hostname : String
  isVerified : Bool
  isBrand : Bool
  links : List String
  forms : List Form
  textSample : String
  canonical : String
deriving DecidableEq, Repr

/-- The `details` record of the result (lines 325–334). -/
structure ResultDetails where
  username : String
  displayName : String
  isVerified : Bool
  isBrand : Bool
  pageHostname : String
  url : String
  linksCount : ℕ
  formsCount : ℕ
deriving DecidableEq, Repr

/-- `AssessmentResult` (line 336). -/
structure AssessmentResult where
  suspicious : Bool
  score : ℚ
  reasons : List String
  details : ResultDetails
deriving DecidableEq, Repr

/-- Models `replace(/^@/, '')` (line 161). -/
def stripAtSign (s : String) : String :=
  if sStartsWith s "@" = true then String.mk (s.data.drop 1) else s

/-- Line 164: `safeGetHostname(url) || (data.hostname ? safeGetHostname(data.hostname) : '')`. -/
def pageHostnameOf (p : Payload) : String :=
  let h := safeGetHostname p.url
  if h ≠ "" then h
  else if p.hostname ≠ "" then safeGetHostname p.hostname
  else ""

/-- Line 170: `hostIsTrustedExact(pageHostname)`. -/
def trustedExactOf (trusted : List String) (p : Payload) : Bool :=
  hostIsTrustedExact trusted (pageHostnameOf p)

/-- The pipeline state just before the trust-dampening block (after
line 310): initialization (lines 169–172) followed by the typosquat,
HTTPS, forms, links, text, hostname-checks and canonical blocks in source
order. -/
def preDampen (p : Payload) (trusted : List String) : ScoreSt :=
  canonicalStep p.canonical (pageHostnameOf p) (trustedExactOf trusted p)
    (hostChecksStep (pageHostnameOf p)
      (textStep (trustedExactOf trusted p) (sTake p.textSample 4000)
        (linksStep (pageHostnameOf p) (trustedExactOf trusted p) p.links
          (formsStep (pageHostnameOf p) (trustedExactOf trusted p) p.forms
            (httpsStep p.url (trustedExactOf trusted p)
              (typosquatStep trusted (pageHostnameOf p)
                ⟨if trustedExactOf trusted p then 0.02 else 0.25, false, []⟩))))))

/-- Embeds `analyzeProfileCore` (lines 157–337) on a typed payload: the
blocks up to the canonical check, the trust-dampening block, the final
clamp of the score to `[0,1]` (line 321) and the final suspicion decision
`suspicious || score >= 0.55` (lines 322–323). -/
def analyzeProfileCore (p : Payload) (trusted : List String) : AssessmentResult :=
  let st := dampenStep (trustedExactOf trusted p) (preDampen p trusted)
  let score := max 0 (min 1 st.score)
  { suspicious := st.suspicious || decide ((0.55 : ℚ) ≤ score)
    score := score
    reasons := st.reasons
    details :=
      { username := stripAtSign (normalizeText p.username)
        displayName := normalizeText p.displayName
        isVerified := p.isVerified
        isBrand := p.isBrand
        pageHostname := pageHostnameOf p
        url := p.url
        linksCount := p.links.length
        formsCount := p.forms.length } }

/-! ## Raw JavaScript values

`analyzeProfileCore` is called with an arbitrary message-supplied value
(line 401); this layer embeds the defensive coercions of lines 157–167 on
a dynamic value type.  JS exceptions (property access on `null`, `for…of`
over a non-iterable) are modelled by `Option`: `none` is an uncaught
throw. -/

/-- A dynamic JavaScript value (numbers as exact rationals; `NaN` and
exotic objects are out of scope of the model). -/
inductive JSValue where
  | undef : JSValue
  | null : JSValue
  | bool : Bool → JSValue
  | num : ℚ → JSValue
  | str : String → JSValue
  | arr : List JSValue → JSValue
  | obj : List (String × JSValue) → JSValue

/-- JS truthiness: `undefined`, `null`, `false`, `0` and `""` are falsy. -/
def jsTruthy : JSValue → Bool
  | .undef => false
  | .null => false
  | .bool b => b
  | .num q => decide (q ≠ 0)
  | .str s => decide (s ≠ "")
  | .arr _ => true
  | .obj _ => true

/-- Models `a || b`. -/
def jsOr (a b : JSValue) : JSValue :=
  if jsTruthy a then a else b

/-- First binding of a key in an object literal (objects are modelled with
their final resolved fields). -/
def lookupField : List (String × JSValue) → String → JSValue
  | [], _ => .undef
  | (k, v) :: rest, name => if k = name then v else lookupField rest name

/-- Property access on a value that is not `null`/`undefined`: objects
look the key up, primitives and arrays yield `undefined` (none of the
accessed names is a built-in property). -/
def lookupJS : JSValue → String → JSValue
  | .obj fs, name => lookupField fs name
  | _, _ => .undef

mutual

/-- Models `String(v)` / template-literal coercion.  Number rendering is a
coarse model (exact integers print as such); no scored string ever feeds
back into the arithmetic. -/
def jsToString : JSValue → String
  | .undef => "undefined"
  | .null => "null"
  | .bool b => if b then "true" else "false"
  | .num q => if q.den = 1 then toString q.num else toString q.num ++ "/" ++ toString q.den
  | .str s => s
  | .arr xs => jsJoin "," (jsToStringElems xs)
  | .obj _ => "[object Object]"

/-- Array elements under `Array.prototype.toString`: `null` and
`undefined` render empty. -/
def jsToStringElems : List JSValue → List String
  | [] => []
  | .undef :: vs => "" :: jsToStringElems vs
  | .null :: vs => "" :: jsToStringElems vs
  | v :: vs => jsToString v :: jsToStringElems vs

end

/-- Numeric value of a digit run. -/
def digitsVal (l : List Char) : ℕ :=
  l.foldl (fun n c => n * 10 + (c.toNat - 48)) 0

/-- Minimal model of `Number(string)`: optional sign, decimal digits with
an optional fraction; empty/whitespace is 0; anything else is `NaN`
(`none`).  Exponents and hex are outside the model. -/
def parseDecimal (s : String) : Option ℚ :=
  match (jsTrim s).data with
  | [] => some 0
  | l =>
    let sign : ℚ := match l with | '-' :: _ => -1 | _ => 1
    let l2 := match l with | '-' :: r => r | '+' :: r => r | _ => l
    let intPart := l2.takeWhile Char.isDigit
    match l2.drop intPart.length with
    | [] => if intPart = [] then none else some (sign * digitsVal intPart)
    | '.' :: frac =>
      if frac.all Char.isDigit ∧ (intPart ≠ [] ∨ frac ≠ []) then
        some (sign * ((digitsVal intPart : ℚ) + (digitsVal frac : ℚ) / ((10 : ℚ) ^ frac.length)))
      else none
    | _ => none

/-- Models `ToNumber` for the comparison `f.inputCount > 0` (line 243);
`none` is `NaN`.  Arrays and objects are conservatively `NaN`. -/
def jsToNumber : JSValue → Option ℚ
  | .num q => some q
  | .bool b => some (if b then 1 else 0)
  | .null => some 0
  | .undef => none
  | .str s => parseDecimal s
  | .arr _ => none
  | .obj _ => none

/-- Models `v > 0` (JS relational comparison after `ToNumber`; `NaN`
compares false). -/
def jsGtZero (v : JSValue) : Bool :=
  match jsToNumber v with
  | some q => decide (0 < q)
  | none => false

/-- `safeGetHostname` on a raw value: falsy input returns `""`; otherwise
every use of the value inside the function coerces it to its string
rendering (the regex tests, the `https://` concatenation and the catch
block all stringify; the one branch that would call `toLowerCase` on a
non-string throws into the catch, which returns the same lowercased
string). -/
def safeGetHostnameJS (v : JSValue) : String :=
  if jsTruthy v = false then "" else safeGetHostnameRest (jsToString v)

/-- One iteration of the forms loop (lines 234–251) on a raw form value:
property access on `null`/`undefined` throws and is caught (line 247,
+0.04); otherwise field reads cannot throw and the typed logic applies. -/
def formStepJS (pageHostname : String) (trustedExact : Bool) (f : JSValue)
    (st : ScoreSt) : ScoreSt :=
  match f with
  | .null => ⟨st.score + 0.04, st.suspicious, st.reasons ++ ["Malformed form action detected"]⟩
  | .undef => ⟨st.score + 0.04, st.suspicious, st.reasons ++ ["Malformed form action detected"]⟩
  | _ =>
    let hasPw := jsTruthy (lookupJS f "hasPassword")
    let action := lookupJS f "action"
    if hasPw = true ∧ jsTruthy action = true then
      let actionHost := safeGetHostnameJS action
      if actionHost ≠ "" ∧ actionHost ≠ pageHostname ∧
          jsIncludes actionHost (lastTwoJoined pageHostname) = false then
        ⟨st.score + 0.40, true,
         st.reasons ++ ["Login form posts to external host (" ++ actionHost ++ ")"]⟩
      else st
    else if jsGtZero (lookupJS f "inputCount") = true ∧ hasPw = false ∧
        jsTruthy action = true then
      ⟨st.score + (if trustedExact then 0.02 else 0.06), st.suspicious,
       st.reasons ++ ["Form with inputs but no password field (possible data harvesting)"]⟩
    else st

/-- Elements produced by `for…of`: arrays yield their elements, strings
their characters; everything else is not iterable (a throw at the loop
head, line 234, which no `try` surrounds). -/
def iterableElems : JSValue → Option (List JSValue)
  | .arr xs => some xs
  | .str s => some (s.data.map (fun c => JSValue.str (String.mk [c])))
  | _ => none

/-- True exactly on the values `for…of` can iterate in the model. -/
def isIterableJS : JSValue → Bool
  | .arr _ => true
  | .str _ => true
  | _ => false

/-- Models the property read `v.length` on a non-`null` value: arrays and
strings report their actual length, plain objects yield whatever their
`length` field holds (`undefined` when absent), and other primitives have
no such property. -/
def jsLengthProp : JSValue → JSValue
  | .arr xs => .num xs.length
  | .str s => .num s.length
  | .obj fs => lookupField fs "length"
  | _ => JSValue.undef

/-- The links block (lines 253–264) on a raw links value.  The guard
`links && links.length` (line 254) skips any value that is falsy or whose
`length` property is falsy.  Arrays and strings pass the guard when
non-empty, have `.slice`, and are iterated (elements and characters
stringified — both `new URL` and the template literal coerce).  A plain
object with a truthy `length` property passes the guard and then throws an
uncaught `TypeError` at `links.slice(0, 40)` (line 257, outside any
`try`), modelled by `none`. -/
def linksBlockJS (pageHostname : String) (trustedExact : Bool) (v : JSValue)
    (st : ScoreSt) : Option ScoreSt :=
  match v with
  | .arr xs => some (linksStep pageHostname trustedExact (xs.map jsToString) st)
  | .str s =>
    some (linksStep pageHostname trustedExact (s.data.map (fun c => String.mk [c])) st)
  | .obj fs => if jsTruthy (lookupField fs "length") = true then none else some st
  | _ => some st

/-- True exactly on the links values that make the links block throw: a
plain object with a truthy `length` property (no `.slice` at line 257). -/
def linksThrows : JSValue → Bool
  | .obj fs => jsTruthy (lookupField fs "length")
  | _ => false

/-- The default-parameter rule `data = {}` (line 157): only `undefined`
is replaced. -/
def dataOf : JSValue → JSValue
  | .undef => .obj []
  | v => v

/-- True exactly on `null`; property access on `null` throws (line 160). -/
def isNullJS : JSValue → Bool
  | .null => true
  | _ => false

/-- Line 166 on raw values: `Array.isArray(data.forms) ? data.forms :
(data.formList || [])`. -/
def formsValOfData (data : JSValue) : JSValue :=
  match lookupJS data "forms" with
  | .arr xs => .arr xs
  | _ => jsOr (lookupJS data "formList") (.arr [])

/-- Line 165 on raw values: `Array.isArray(data.links) ? data.links :
(data.linkList || [])`. -/
def linksValOfData (data : JSValue) : JSValue :=
  match lookupJS data "links" with
  | .arr xs => .arr xs
  | _ => jsOr (lookupJS data "linkList") (.arr [])

/-- The forms value after the fallback, for a raw input. -/
def formsValOf (input : JSValue) : JSValue :=
  formsValOfData (dataOf input)

/-- The links value after the fallback, for a raw input. -/
def linksValOf (input : JSValue) : JSValue :=
  linksValOfData (dataOf input)

/-- `details` of the raw-value pipeline: `url` is the raw value and the
counts are the raw values of the `.length` reads (possibly `undefined` or
an arbitrary `length` field), exactly as the source stores them
(lines 331–333). -/
structure ResultDetailsJS where
  username : String
  displayName : String
  isVerified : Bool
  isBrand : Bool
  pageHostname : String
  url : JSValue
  linksCount : JSValue
  formsCount : JSValue

/-- `AssessmentResult` of the raw-value pipeline. -/
structure AssessmentResultJS where
  suspicious : Bool
  score : ℚ
  reasons : List String
  details : ResultDetailsJS

/-- The body of `analyzeProfileCore` on a raw non-`null` input value:
field extraction with defensive coercions (lines 160–167) followed by the
scoring pipeline; `none` models the two uncaught throws — iterating a
non-iterable forms value (line 234) and calling `.slice` on an object
links value that passed the length guard (line 257). -/
def analyzeBody (data : JSValue) (trusted : List String) : Option AssessmentResultJS :=
  let usernameRaw := jsOr (lookupJS data "username")
    (jsOr (lookupJS data "handle") (jsOr (lookupJS data "user") (.str "")))
  let username := stripAtSign (normalizeText (jsToString (jsOr usernameRaw (.str ""))))
  let displayName := normalizeText (jsToString (jsOr (lookupJS data "displayName")
    (jsOr (lookupJS data "fullName") (jsOr (lookupJS data "title") (.str "")))))
  let urlV := jsOr (lookupJS data "url")
    (jsOr (lookupJS data "pageUrl") (jsOr (lookupJS data "origin") (.str "")))
  let pageHostname :=
    let h := safeGetHostnameJS urlV
    if h ≠ "" then h
    else if jsTruthy (lookupJS data "hostname") = true then
      safeGetHostnameJS (lookupJS data "hostname")
    else ""
  let linksV := linksValOfData data
  let formsV := formsValOfData data
  let textSample := sTake (jsToString (jsOr (lookupJS data "textSample") (.str ""))) 4000
  let trustedExact := hostIsTrustedExact trusted pageHostname
  match iterableElems formsV with
  | none => none
  | some forms =>
    let st1 := typosquatStep trusted pageHostname
      ⟨if trustedExact then 0.02 else 0.25, false, []⟩
    let st2 := httpsStep (jsToString urlV) trustedExact st1
    let st3 := forms.foldl (fun st f => formStepJS pageHostname trustedExact f st) st2
    match linksBlockJS pageHostname trustedExact linksV st3 with
    | none => none
    | some st4 =>
      let st5 := textStep trustedExact textSample st4
      let st6 := hostChecksStep pageHostname st5
      let canonV := jsOr (lookupJS data "ogUrl") (lookupJS data "canonical")
      let st7 :=
        if jsTruthy canonV = true then
          canonicalCore (safeGetHostnameJS canonV) pageHostname trustedExact st6
        else st6
      let st8 := dampenStep trustedExact st7
      let score := max 0 (min 1 st8.score)
      some
        { suspicious := st8.suspicious || decide ((0.55 : ℚ) ≤ score)
          score := score
          reasons := st8.reasons
          details :=
            { username := username
              displayName := displayName
              isVerified := jsTruthy (lookupJS data "isVerified")
              isBrand := jsTruthy (lookupJS data "isBrand")
              pageHostname := pageHostname
              url := urlV
              linksCount := jsLengthProp linksV
              formsCount := jsLengthProp formsV } }

/-- Embeds `analyzeProfileCore` (lines 157–337) on a raw input value:
`undefined` picks up the `{}` default, `null` throws at the first property
access (line 160), anything else runs the body. -/
def analyzeProfileCoreJS (input : JSValue) (trusted : List String) :
    Option AssessmentResultJS :=
  if isNullJS (dataOf input) = true then none
  else analyzeBody (dataOf input) trusted

/-- Embeds the default trusted set (lines 5–8). -/
def DEFAULT_TRUSTED : List String := ["facebook.com", "tiktok.com"]

/-! ## Spec-side reference definitions

Each is written from the specification's words, to be compared with the
embedding of the source. -/

/-- The spec's description of `safeGetHostname` on parse failure: "fall
back to the lowercased input up to its first `/`". -/
def specTruncateAtSlash (s : String) : String :=
  String.mk ((sLower s).data.takeWhile (fun c => c ≠ '/'))

/-- The spec's description of the link-aggregation step (§4.3): the first
40 links are individually assessed, their risks summed, the sum divided by
the total supplied link count, the mean clamped to 0.15 (exactly trusted)
or 0.40, the clamped value added, and suspicion forced exactly when the
clamped value reaches 0.30. -/
def specLinkAggregation (pageHostname : String) (trustedExact : Bool)
    (links : List String) (st : ScoreSt) : ScoreSt :=
  let assessed := links.take 40
  let mean := (assessed.map (fun l => (linkIsSuspicious l pageHostname).1)).sum /
    (links.length : ℚ)
  let clamped := min (if trustedExact then 0.15 else 0.40) mean
  ⟨st.score + clamped,
   st.suspicious || decide ((0.3 : ℚ) ≤ clamped),
   st.reasons ++ (assessed.map (fun l => (linkIsSuspicious l pageHostname).2)).flatten⟩

/-- The spec's description of the hostname-checks step (§4.6 step 7): the
punycode and IP-address conditions are evaluated independently, each
adding 0.40 and forcing suspicion. -/
def specHostnameChecks (pageHostname : String) (st : ScoreSt) : ScoreSt :=
  ⟨st.score + (if isPunycode pageHostname then 0.40 else 0) +
     (if isIpAddress pageHostname then 0.40 else 0),
   st.suspicious || isPunycode pageHostname || isIpAddress pageHostname,
   st.reasons ++ (if isPunycode pageHostname then ["Page hostname uses punycode"] else []) ++
     (if isIpAddress pageHostname then ["Page served from IP address"] else [])⟩

/-! ## Concrete inputs used by counterexamples and witnesses -/

/-- The §8 typosquat scenario: an HTTPS page on `faceboook.com`. -/
def payloadFaceboook : Payload :=
  ⟨"", "", "https://faceboook.com/", "", false, false, [], [], "", ""⟩

/-- A clean exactly-trusted HTTPS page. -/
def payloadTrustedClean : Payload :=
  ⟨"user", "Name", "https://www.facebook.com/profile", "", true, false, [], [], "", ""⟩

/-- 40 same-path links that each score 0.10 (path token `login`). -/
def fortyLoginLinks : List String := List.replicate 40 "/login"

/-- The §8 links scenario, 45-link variant: links 41–45 each score 0.20
(raw-IP hosts) but are beyond index 40. -/
def payload45 : Payload :=
  ⟨"", "", "https://shop.example/", "", false, false,
   fortyLoginLinks ++ List.replicate 5 "http://1.2.3.4/", [], "", ""⟩

/-- The §8 links scenario, first-40-only variant. -/
def payload40 : Payload :=
  ⟨"", "", "https://shop.example/", "", false, false, fortyLoginLinks, [], "", ""⟩

/-- The §8 credential-exfiltration form. -/
def evilForm : Form := ⟨"http://evil.example/collect", "post", 2, true⟩

/-- A raw input with wrong-typed fields everywhere a field is read. -/
def weirdInput : JSValue :=
  .obj [("url", .num 42), ("formList", .str "ab"), ("linkList", .str "xy"),
        ("textSample", .bool true), ("username", .num 7), ("isVerified", .str "x")]

/-- A raw input whose links value is a plain object with a truthy
`length`: it passes the `links && links.length` guard (line 254) and then
throws at `links.slice(0, 40)` (line 257). -/
def sliceThrowInput : JSValue :=
  .obj [("linkList", .obj [("length", .num 1)])]

/-! ## Theorems

Helper lemmas come first; each claim of the specification audit is then
settled by one theorem (with a witness where the statement carries
hypotheses). -/

/-- The final clamp makes the returned score literally
`max 0 (min 1 (pre-clamp score))`. -/
theorem analyzeProfileCore_score_eq (p : Payload) (trusted : List String) :
    (analyzeProfileCore p trusted).score =
      max 0 (min 1 (dampenStep (trustedExactOf trusted p) (preDampen p trusted)).score) := rfl

/-- C1: for every payload and every trusted-domain set, the score field of
the `AssessmentResult` returned by `analyzeProfileCore` lies in the closed
interval `[0, 1]`. -/
theorem c1_score_in_unit_interval (p : Payload) (trusted : List String) :
    0 ≤ (analyzeProfileCore p trusted).score ∧ (analyzeProfileCore p trusted).score ≤ 1 := by
  rw [analyzeProfileCore_score_eq]
  exact ⟨le_max_left _ _, max_le (by norm_num) (min_le_left _ _)⟩

/-- C5 counterexample: `"http://"` fails URL parsing, yet `safeGetHostname`
returns the whole lowercased string `"http://"`, not the input truncated at
its first slash (`"http:"`) as the claim states. -/
theorem c5_counterexample :
    jsUrlParse "http://" none = none ∧
    safeGetHostname "http://" = "http://" ∧
    specTruncateAtSlash "http://" = "http:" ∧
    ("http://" : String) ≠ ("http:" : String) := by decide

/-- C5 (amended): empty input yields `""`; when the input is parsed and
parsing fails, `safeGetHostname` returns the lowercased string it
attempted to parse in full — the input itself when it already carried an
`http(s)://` scheme, otherwise the input with `https://` prepended — with
no truncation at a slash. -/
theorem c5_parse_failure_fallback (s : String) :
    (s = "" → safeGetHostname s = "") ∧
    (httpSchemeTest s = true → jsUrlParse s none = none →
      safeGetHostname s = sLower s) ∧
    (s ≠ "" → httpSchemeTest s = false → bareHostTest s = false →
      jsUrlParse ("https://" ++ s) none = none →
      safeGetHostname s = sLower ("https://" ++ s)) := by
  refine ⟨fun h => by rw [h]; rfl, fun h1 h2 => ?_, fun h0 h1 h2 h3 => ?_⟩
  · have hne : s ≠ "" := by
      intro he
      rw [he] at h1
      exact absurd h1 (by decide)
    unfold safeGetHostname safeGetHostnameRest
    rw [if_neg hne, if_neg (not_not_intro h1), h2]
  · unfold safeGetHostname safeGetHostnameRest
    rw [if_neg h0, if_pos (by simp [h1]), if_neg (by simp [h2]), h3]

/-- C5 witness: the amended statement applied at `"http://"`. -/
theorem c5_witness : safeGetHostname "http://" = sLower "http://" :=
  (c5_parse_failure_fallback "http://").2.1 (by decide) (by decide)

/-- C6 counterexample: on the `faceboook.com` page with the default
trusted set, no reason printed by `analyzeProfileCore` mentions a distance
of `0.22`; the claimed conjunction fails in its distance conjunct. -/
theorem c6_counterexample :
    ¬ ((analyzeProfileCore payloadFaceboook DEFAULT_TRUSTED).suspicious = true ∧
       (0.75 : ℚ) ≤ (analyzeProfileCore payloadFaceboook DEFAULT_TRUSTED).score ∧
       ∃ r ∈ (analyzeProfileCore payloadFaceboook DEFAULT_TRUSTED).reasons,
         jsIncludes r "faceboook.com" = true ∧ jsIncludes r "facebook.com" = true ∧
         jsIncludes r "0.22" = true) := by
  with_unfolding_all decide

/-- C6 (amended): the `faceboook.com` page against
`{facebook.com, tiktok.com}` is marked suspicious with score at least
0.75, and a reason names both `faceboook.com` and `facebook.com` with the
normalized distance printed as `0.11` (the distance is 1/9, not ≈0.22). -/
theorem c6_typosquat_detected :
    (analyzeProfileCore payloadFaceboook DEFAULT_TRUSTED).suspicious = true ∧
    (0.75 : ℚ) ≤ (analyzeProfileCore payloadFaceboook DEFAULT_TRUSTED).score ∧
    ∃ r ∈ (analyzeProfileCore payloadFaceboook DEFAULT_TRUSTED).reasons,
      jsIncludes r "faceboook.com" = true ∧ jsIncludes r "facebook.com" = true ∧
      jsIncludes r "0.11" = true := by
  with_unfolding_all decide

/-- C8: a form with a password field and a non-empty action whose resolved
host is non-empty, differs from the page hostname and does not contain the
page's registered domain (the inline `split('.').slice(-2).join('.')`
expression) adds exactly 0.40, forces suspicion, and appends a reason
naming the external host. -/
theorem c8_form_exfiltration (f : Form) (ph : String) (te : Bool) (st : ScoreSt)
    (h1 : f.hasPassword = true) (h2 : f.action ≠ "")
    (h3 : safeGetHostname f.action ≠ "") (h4 : safeGetHostname f.action ≠ ph)
    (h5 : jsIncludes (safeGetHostname f.action) (lastTwoJoined ph) = false) :
    formStep ph te f st =
      ⟨st.score + 0.40, true,
       st.reasons ++ ["Login form posts to external host (" ++ safeGetHostname f.action ++ ")"]⟩ := by
  unfold formStep
  rw [if_pos ⟨h1, h2⟩, if_pos ⟨h3, h4, h5⟩]

/-- C8 witness: the §8 scenario — `{hasPassword: true, action:
"http://evil.example/collect"}` on page hostname `mybank.com` — raises the
score from 0.25 to exactly 0.65 and forces suspicion. -/
theorem c8_witness :
    formStep "mybank.com" false evilForm ⟨0.25, false, []⟩ =
      ⟨0.65, true, ["Login form posts to external host (evil.example)"]⟩ := by
  have h := c8_form_exfiltration evilForm "mybank.com" false ⟨0.25, false, []⟩
    (by decide) (by decide) (by decide) (by decide) (by decide)
  rw [h]
  with_unfolding_all decide

/-- `splitCh` never returns the empty list of groups. -/
theorem splitCh_ne_nil (sep : Char) (l : List Char) : splitCh sep l ≠ [] := by
  induction l with
  | nil => simp [splitCh]
  | cons a t ih =>
    unfold splitCh
    by_cases h : a = sep
    · simp [h]
    · rw [if_neg h]
      rcases hs : splitCh sep t with _ | ⟨g, gs⟩
      · exact (ih hs).elim
      · simp [hs]

/-- Every character of a split list is the separator or lies in one of the
groups. -/
theorem mem_splitCh (sep : Char) (l : List Char) (c : Char) (hc : c ∈ l) :
    c = sep ∨ ∃ g ∈ splitCh sep l, c ∈ g := by
  induction l with
  | nil => cases hc
  | cons a t ih =>
    rcases List.mem_cons.mp hc with rfl | hmem
    · by_cases h : c = sep
      · exact Or.inl h
      · right
        unfold splitCh
        rw [if_neg h]
        rcases hs : splitCh sep t with _ | ⟨g, gs⟩
        · exact (splitCh_ne_nil sep t hs).elim
        · simp only [hs]
          exact ⟨c :: g, List.mem_cons_self _ _, List.mem_cons_self _ _⟩
    · rcases ih hmem with h | ⟨g, hg, hcg⟩
      · exact Or.inl h
      · right
        unfold splitCh
        by_cases h : a = sep
        · rw [if_pos h]
          exact ⟨g, List.mem_cons_of_mem _ hg, hcg⟩
        · rw [if_neg h]
          rcases hs : splitCh sep t with _ | ⟨g0, gs⟩
          · exact (splitCh_ne_nil sep t hs).elim
          · simp only [hs]
            rw [hs] at hg
            rcases List.mem_cons.mp hg with heq | hgs
            · exact ⟨a :: g0, List.mem_cons_self _ _,
                List.mem_cons_of_mem _ (heq ▸ hcg)⟩
            · exact ⟨g, List.mem_cons_of_mem _ hgs, hcg⟩

/-- An IP-shaped hostname consists of digits and dots only. -/
theorem ip_chars (h : String) (hip : isIpAddress h = true) (c : Char)
    (hc : c ∈ h.data) : c.isDigit = true ∨ c = '.' := by
  rcases mem_splitCh '.' h.data c hc with hdot | ⟨g, hg, hcg⟩
  · exact Or.inr hdot
  · left
    simp only [isIpAddress, Bool.and_eq_true] at hip
    have hgOk := List.all_eq_true.mp hip.2 g hg
    simp only [ipGroupOk, Bool.and_eq_true] at hgOk
    exact List.all_eq_true.mp hgOk.2 c hcg

/-- A list containing a given pattern as an infix contains the pattern's
first character. -/
theorem hasInfix_mem (c : Char) (p : List Char) :
    ∀ l : List Char, listHasInfix l (c :: p) = true → c ∈ l := by
  intro l
  induction l with
  | nil => intro h; exact absurd h (by simp [listHasInfix, listIsPrefixOf])
  | cons a t ih =>
    intro h
    unfold listHasInfix at h
    rcases Bool.or_eq_true _ _ ▸ h with h1 | h2
    · unfold listIsPrefixOf at h1
      rcases Bool.and_eq_true _ _ ▸ h1 with ⟨he, -⟩
      exact List.mem_cons.mpr (Or.inl (of_decide_eq_true he).symm)
    · exact List.mem_cons_of_mem _ (ih h2)

/-- The punycode marker and the dotted-quad shape are mutually exclusive:
an IP-shaped hostname has no letter `x`. -/
theorem punycode_ip_impossible (h : String) :
    ¬ (isPunycode h = true ∧ isIpAddress h = true) := by
  rintro ⟨hp, hip⟩
  have hx : 'x' ∈ h.data := by
    have hinf : listHasInfix h.data ('x' :: ['n', '-', '-']) = true := hp
    exact hasInfix_mem _ _ _ hinf
  rcases ip_chars h hip 'x' hx with hd | hdot
  · exact absurd hd (by decide)
  · exact absurd hdot (by decide)

/-- C9 counterexample: the claimed page hostname firing both hostname
checks in the same call does not exist — an IP-shaped hostname consists of
digits and dots only and can never contain the punycode marker `xn--`. -/
theorem c9_counterexample :
    ¬ ∃ h : String, isPunycode h = true ∧ isIpAddress h = true := by
  rintro ⟨h, hconj⟩
  exact punycode_ip_impossible h hconj

/-- C9 (amended): the punycode check and the IP-address check of the
hostname-checks step are evaluated independently — the step equals the
spec-side description in which each condition separately adds 0.40 and
forces suspicion — but the two conditions are mutually exclusive, so no
hostname fires both in one call. -/
theorem c9_hostname_checks (h : String) (st : ScoreSt) :
    hostChecksStep h st = specHostnameChecks h st ∧
    ¬ (isPunycode h = true ∧ isIpAddress h = true) := by
  refine ⟨?_, punycode_ip_impossible h⟩
  unfold hostChecksStep specHostnameChecks
  by_cases hp : isPunycode h = true <;> by_cases hi : isIpAddress h = true <;>
    simp [hp, hi]

/-- The `data = {}` default parameter keeps `null`-ness unchanged. -/
theorem isNullJS_dataOf (d : JSValue) : isNullJS (dataOf d) = isNullJS d := by
  cases d <;> rfl

/-- C4 counterexample: called on `null` (with the default trusted set),
`analyzeProfileCore` throws at the first property access (`data.username`,
line 160) instead of returning a result — the `data = {}` default only
replaces `undefined`, so `null` is not coerced. -/
theorem c4_counterexample :
    analyzeProfileCoreJS JSValue.null DEFAULT_TRUSTED = none := rfl

/-- C4 (amended): for every raw input that is not `null`, whose forms
value (after the `formList` fallback, line 166) is iterable, and whose
links value (after the `linkList` fallback, line 165) is not a plain
object with a truthy `length` (which would pass the guard at line 254 and
throw at `links.slice(0, 40)`, line 257), `analyzeProfileCore` terminates
normally and returns a well-formed `AssessmentResult` with score in
`[0,1]`; malformed URLs and wrong-typed fields are coerced to defaults
along the way rather than aborting. -/
theorem c4_no_throw (d : JSValue) (ts : List String)
    (h1 : isNullJS d = false) (h2 : isIterableJS (formsValOf d) = true)
    (h3 : linksThrows (linksValOf d) = false) :
    ∃ r, analyzeProfileCoreJS d ts = some r ∧ 0 ≤ r.score ∧ r.score ≤ 1 := by
  obtain ⟨xs, hxs⟩ : ∃ xs, iterableElems (formsValOfData (dataOf d)) = some xs := by
    have h2' : isIterableJS (formsValOfData (dataOf d)) = true := h2
    cases hv : formsValOfData (dataOf d) <;> rw [hv] at h2' <;>
      first
        | exact ⟨_, rfl⟩
        | simp [isIterableJS] at h2'
  have h3' : linksThrows (linksValOfData (dataOf d)) = false := h3
  unfold analyzeProfileCoreJS
  rw [if_neg (by rw [isNullJS_dataOf, h1]; simp)]
  simp only [analyzeBody]
  rw [hxs]
  cases hv : linksValOfData (dataOf d)
  case obj fs =>
    rw [hv] at h3'
    simp only [linksThrows] at h3'
    simp only [linksBlockJS]
    rw [if_neg (by simp [h3'])]
    exact ⟨_, rfl, le_max_left _ _, max_le (by norm_num) (min_le_left _ _)⟩
  all_goals
    exact ⟨_, rfl, le_max_left _ _, max_le (by norm_num) (min_le_left _ _)⟩

/-- The slice-throw path is real in the model: an object links value with
a truthy `length` makes the whole call throw (uncaught, line 257), so the
links hypothesis of the no-throw theorem cannot be dropped. -/
theorem sliceThrowInput_throws :
    analyzeProfileCoreJS sliceThrowInput DEFAULT_TRUSTED = none := by
  with_unfolding_all rfl

/-- C4 witness: a raw input with wrong-typed fields in every position the
source reads still produces a well-formed result. -/
theorem c4_witness :
    ∃ r, analyzeProfileCoreJS weirdInput DEFAULT_TRUSTED = some r ∧
      0 ≤ r.score ∧ r.score ≤ 1 :=
  c4_no_throw weirdInput DEFAULT_TRUSTED (by decide) (by decide) (by decide)

/-- C2: exactly-trusted page on which no check has set the suspicion flag
by the time the trust-dampening block runs: the result is not suspicious
and its score is at most 0.05. -/
theorem c2_trusted_clean (p : Payload) (trusted : List String)
    (h1 : trustedExactOf trusted p = true)
    (h2 : (preDampen p trusted).suspicious = false) :
    (analyzeProfileCore p trusted).suspicious = false ∧
    (analyzeProfileCore p trusted).score ≤ 0.05 := by
  have hdamp : dampenStep (trustedExactOf trusted p) (preDampen p trusted) =
      ⟨min (preDampen p trusted).score 0.05, (preDampen p trusted).suspicious,
       (preDampen p trusted).reasons.filter (fun r => weakReason r = false)⟩ := by
    unfold dampenStep
    rw [if_pos ⟨h1, h2⟩]
  have hscore : (analyzeProfileCore p trusted).score ≤ 0.05 := by
    rw [analyzeProfileCore_score_eq, hdamp]
    exact max_le (by norm_num) (le_trans (min_le_right _ _) (min_le_right _ _))
  refine ⟨?_, hscore⟩
  have hrepr : (analyzeProfileCore p trusted).suspicious =
      ((dampenStep (trustedExactOf trusted p) (preDampen p trusted)).suspicious ||
        decide ((0.55 : ℚ) ≤ (analyzeProfileCore p trusted).score)) := rfl
  have hlt : ¬ ((0.55 : ℚ) ≤ (analyzeProfileCore p trusted).score) := by
    intro hcon
    linarith
  rw [hrepr, hdamp, h2, decide_eq_false hlt]
  rfl

/-- C2 witness: a clean HTTPS page on `www.facebook.com` with the default
trusted set is accepted with score at most 0.05. -/
theorem c2_witness :
    (analyzeProfileCore payloadTrustedClean DEFAULT_TRUSTED).suspicious = false ∧
    (analyzeProfileCore payloadTrustedClean DEFAULT_TRUSTED).score ≤ 0.05 :=
  c2_trusted_clean payloadTrustedClean DEFAULT_TRUSTED
    (by with_unfolding_all decide) (by with_unfolding_all decide)

/-- The links loop of lines 257–260 computes the sum of the individual
risks and appends the individual reasons in order. -/
theorem linksFold_eq (ph : String) (l : List String) (s0 : ℚ) (rs : List String) :
    l.foldl
      (fun (acc : ℚ × List String) x =>
        let r := linkIsSuspicious x ph
        (acc.1 + r.1, acc.2 ++ r.2))
      (s0, rs) =
    (s0 + (l.map (fun x => (linkIsSuspicious x ph).1)).sum,
     rs ++ (l.map (fun x => (linkIsSuspicious x ph).2)).flatten) := by
  induction l generalizing s0 rs with
  | nil => simp
  | cons a t ih =>
    simp only [List.foldl_cons, List.map_cons, List.sum_cons, List.flatten_cons]
    rw [ih]
    simp [add_assoc, List.append_assoc]

/-- C7: on a non-empty link list the links block equals the spec-side
aggregation — exactly the first 40 links are individually assessed, their
risks summed, the sum divided by the total supplied count, the mean
clamped to 0.15 (exactly trusted) or 0.40, the clamped value added to the
score, and suspicion forced exactly when the clamped value is ≥ 0.30. -/
theorem c7_link_aggregation (ph : String) (te : Bool) (links : List String)
    (st : ScoreSt) (h : links ≠ []) :
    linksStep ph te links st = specLinkAggregation ph te links st := by
  have hlen : links.length ≠ 0 := by
    simpa [List.length_eq_zero] using h
  have hmax : max 1 links.length = links.length :=
    Nat.max_eq_right (Nat.one_le_iff_ne_zero.mpr hlen)
  simp only [linksStep, specLinkAggregation]
  rw [if_pos hlen, linksFold_eq, hmax]
  simp

/-- C7 witness: the aggregation identity at a one-link list. -/
theorem c7_witness :
    linksStep "example.com" false ["http://1.2.3.4/"] ⟨0.25, false, []⟩ =
      specLinkAggregation "example.com" false ["http://1.2.3.4/"] ⟨0.25, false, []⟩ :=
  c7_link_aggregation "example.com" false ["http://1.2.3.4/"] ⟨0.25, false, []⟩
    (by decide)

/-- C3 counterexample: the §8 links scenario — 45 links whose last five
are individually high-risk versus its first 40 links alone — produces two
different results: the link mean divides by the total supplied count (45
versus 40) and `details.linksCount` records that count. -/
theorem c3_counterexample :
    analyzeProfileCore payload45 DEFAULT_TRUSTED ≠
      analyzeProfileCore payload40 DEFAULT_TRUSTED := by
  intro h
  have h45 : (analyzeProfileCore payload45 DEFAULT_TRUSTED).details.linksCount = 45 := rfl
  have h40 : (analyzeProfileCore payload40 DEFAULT_TRUSTED).details.linksCount = 40 := rfl
  rw [h, h40] at h45
  exact absurd h45 (by decide)

/-- The links block reads the list only through its first 40 entries and
its total length. -/
theorem linksStep_take_congr (ph : String) (te : Bool) (l1 l2 : List String)
    (st : ScoreSt) (h1 : l1.take 40 = l2.take 40) (h2 : l1.length = l2.length) :
    linksStep ph te l1 st = linksStep ph te l2 st := by
  unfold linksStep
  rw [h1, h2]

/-- C3 (amended): links beyond index 40 are never individually assessed —
two payloads that differ only in links after index 40, with the same total
link count, produce identical `AssessmentResult`s.  (Supplying 45 links
versus only the first 40 does change the result: the mean divides by the
total supplied count and `details.linksCount` records it, as the
counterexample shows.) -/
theorem c3_links_beyond_40_ignored
    (username displayName url hostname : String) (isVerified isBrand : Bool)
    (forms : List Form) (textSample canonical : String)
    (trusted : List String) (l1 l2 : List String)
    (h1 : l1.take 40 = l2.take 40) (h2 : l1.length = l2.length) :
    analyzeProfileCore
        ⟨username, displayName, url, hostname, isVerified, isBrand, l1,
         forms, textSample, canonical⟩ trusted =
      analyzeProfileCore
        ⟨username, displayName, url, hostname, isVerified, isBrand, l2,
         forms, textSample, canonical⟩ trusted := by
  simp only [analyzeProfileCore, preDampen, trustedExactOf, pageHostnameOf]
  rw [linksStep_take_congr _ _ _ _ _ h1 h2, h2]

/-- C3 witness: two 41-link lists equal on their first 40 entries give
identical results even though link 41 differs (raw-IP versus benign). -/
theorem c3_witness :
    analyzeProfileCore
        ⟨"", "", "https://shop.example/", "", false, false,
         fortyLoginLinks ++ ["http://1.2.3.4/"], [], "", ""⟩ DEFAULT_TRUSTED =
      analyzeProfileCore
        ⟨"", "", "https://shop.example/", "", false, false,
         fortyLoginLinks ++ ["/x"], [], "", ""⟩ DEFAULT_TRUSTED :=
  c3_links_beyond_40_ignored "" "" "https://shop.example/" "" false false
    [] "" "" DEFAULT_TRUSTED _ _ (by decide) (by decide)

/-- A fold whose every step can only raise the score can only raise the
score. -/
theorem foldl_score_mono {α : Type} (step : ScoreSt → α → ScoreSt)
    (hstep : ∀ st x, st.score ≤ (step st x).score) :
    ∀ (l : List α) (st : ScoreSt), st.score ≤ (l.foldl step st).score := by
  intro l
  induction l with
  | nil => intro st; exact le_refl _
  | cons a t ih =>
    intro st
    exact le_trans (hstep st a) (ih (step st a))

/-- The full-domain fallback never lowers the score. -/
theorem typosquatFullPart_score_mono (ts : List String) (cr : String) (st : ScoreSt) :
    st.score ≤ (typosquatFullPart ts cr st).score := by
  unfold typosquatFullPart
  split
  · split
    · exact le_max_left _ _
    · exact le_refl _
  · exact le_refl _

/-- The brand-keyword loop never lowers the score. -/
theorem brandKeywordFold_score_mono (ts : List String) (cr cs : String) (st : ScoreSt) :
    st.score ≤ (brandKeywordFold ts cr cs st).score := by
  unfold brandKeywordFold
  refine foldl_score_mono _ ?_ _ st
  intro st1 entry
  refine foldl_score_mono _ ?_ _ st1
  intro st2 kw
  split
  · exact le_max_left _ _
  · exact le_refl _

/-- The typosquat block never lowers the score. -/
theorem typosquatStep_score_mono (ts : List String) (ph : String) (st : ScoreSt) :
    st.score ≤ (typosquatStep ts ph st).score := by
  simp only [typosquatStep]
  split
  · refine le_trans ?_ (brandKeywordFold_score_mono _ _ _ _)
    split
    · split
      · exact le_max_left _ _
      · exact typosquatFullPart_score_mono _ _ _
    · exact typosquatFullPart_score_mono _ _ _
  · exact le_refl _

/-- On a page that is not exactly trusted the HTTPS block never lowers the
score (the 0.05 clamp is reserved for exactly-trusted pages). -/
theorem httpsStep_score_mono_untrusted (url : String) (st : ScoreSt) :
    st.score ≤ (httpsStep url false st).score := by
  simp only [httpsStep]
  split
  · dsimp only
    rw [if_neg (by simp)]
    exact le_add_of_nonneg_right (by norm_num)
  · exact le_refl _

/-- A single form never lowers the score. -/
theorem formStep_score_mono (ph : String) (te : Bool) (f : Form) (st : ScoreSt) :
    st.score ≤ (formStep ph te f st).score := by
  simp only [formStep]
  split
  · split
    · exact le_add_of_nonneg_right (by norm_num)
    · exact le_refl _
  · split
    · refine le_add_of_nonneg_right ?_
      split <;> norm_num
    · exact le_refl _

/-- The forms loop never lowers the score. -/
theorem formsStep_score_mono (ph : String) (te : Bool) (fs : List Form) (st : ScoreSt) :
    st.score ≤ (formsStep ph te fs st).score := by
  unfold formsStep
  exact foldl_score_mono _ (fun st f => formStep_score_mono ph te f st) fs st

/-- Every individual link risk is nonnegative. -/
theorem linkIsSuspicious_risk_nonneg (l ph : String) :
    0 ≤ (linkIsSuspicious l ph).1 := by
  unfold linkIsSuspicious
  split
  · norm_num
  · dsimp only
    repeat' split
    all_goals norm_num

/-- The links block never lowers the score: the clamped contribution is a
minimum of a positive cap and a nonnegative mean. -/
theorem linksStep_score_mono (ph : String) (te : Bool) (links : List String)
    (st : ScoreSt) : st.score ≤ (linksStep ph te links st).score := by
  simp only [linksStep]
  split
  · rw [linksFold_eq]
    dsimp only
    refine le_add_of_nonneg_right (le_min ?_ ?_)
    · split <;> norm_num
    · refine div_nonneg ?_ (Nat.cast_nonneg _)
      rw [zero_add]
      refine List.sum_nonneg ?_
      intro x hx
      obtain ⟨l', -, rfl⟩ := List.mem_map.mp hx
      exact linkIsSuspicious_risk_nonneg l' ph
  · exact le_refl _

/-- The text block never lowers the score. -/
theorem textStep_score_mono (te : Bool) (t : String) (st : ScoreSt) :
    st.score ≤ (textStep te t st).score := by
  simp only [textStep]
  split
  · refine foldl_score_mono _ ?_ _ st
    intro st1 f
    split
    · refine le_add_of_nonneg_right ?_
      split <;> norm_num
    · exact le_refl _
  · exact le_refl _

/-- The hostname checks never lower the score. -/
theorem hostChecksStep_score_mono (ph : String) (st : ScoreSt) :
    st.score ≤ (hostChecksStep ph st).score := by
  simp only [hostChecksStep]
  have h1 : st.score ≤
      (if isPunycode ph = true then
        (⟨st.score + 0.40, true, st.reasons ++ ["Page hostname uses punycode"]⟩ : ScoreSt)
      else st).score := by
    split
    · exact le_add_of_nonneg_right (by norm_num)
    · exact le_refl _
  split
  · exact le_trans h1 (le_add_of_nonneg_right (by norm_num))
  · exact h1

/-- The canonical comparison never lowers the score. -/
theorem canonicalCore_score_mono (ch ph : String) (te : Bool) (st : ScoreSt) :
    st.score ≤ (canonicalCore ch ph te st).score := by
  simp only [canonicalCore]
  split
  · split
    · refine le_add_of_nonneg_right ?_
      split <;> norm_num
    · split
      · exact le_refl _
      · exact le_refl _
  · exact le_refl _

/-- The canonical block never lowers the score. -/
theorem canonicalStep_score_mono (c ph : String) (te : Bool) (st : ScoreSt) :
    st.score ≤ (canonicalStep c ph te st).score := by
  unfold canonicalStep
  split
  · exact canonicalCore_score_mono _ _ _ _
  · exact le_refl _

/-- Trust dampening is skipped entirely on a page that is not exactly
trusted. -/
theorem dampenStep_untrusted (st : ScoreSt) : dampenStep false st = st := by
  unfold dampenStep
  rw [if_neg]
  rintro ⟨hfalse, -⟩
  exact absurd hfalse (by decide)

/-- C10: a payload whose registered domain is not exactly trusted scores
at least 0.25 — the base score starts there, every later block adds a
nonnegative amount or takes a maximum, and both score-lowering clamps
(the HTTPS benefit-of-the-doubt clamp and the trust-dampening clamp)
apply only to exactly-trusted pages. -/
theorem c10_untrusted_floor (p : Payload) (trusted : List String)
    (h : trustedExactOf trusted p = false) :
    0.25 ≤ (analyzeProfileCore p trusted).score := by
  have hpre : (0.25 : ℚ) ≤ (preDampen p trusted).score := by
    unfold preDampen
    rw [h]
    refine le_trans ?_ (canonicalStep_score_mono _ _ _ _)
    refine le_trans ?_ (hostChecksStep_score_mono _ _)
    refine le_trans ?_ (textStep_score_mono _ _ _)
    refine le_trans ?_ (linksStep_score_mono _ _ _ _)
    refine le_trans ?_ (formsStep_score_mono _ _ _ _)
    refine le_trans ?_ (httpsStep_score_mono_untrusted _ _)
    refine le_trans ?_ (typosquatStep_score_mono _ _ _)
    norm_num
  rw [analyzeProfileCore_score_eq, h, dampenStep_untrusted]
  exact le_trans (le_min (by norm_num) hpre) (le_max_right _ _)

/-- C10 witness: the non-trusted `faceboook.com` page scores at least
0.25. -/
theorem c10_witness :
    (0.25 : ℚ) ≤ (analyzeProfileCore payloadFaceboook DEFAULT_TRUSTED).score :=
  c10_untrusted_floor payloadFaceboook DEFAULT_TRUSTED (by with_unfolding_all decide)

end Advirs
